import Mathlib

/-!
Shallow embedding of the batch-obfuscation orchestrator in
`ObfusPS-Tool.py`, covering the engine locator, file validator,
command builder, output-lifecycle manager, batch runner and result
reporter, together with theorems checking the specification's claims
against this embedding.

Modelling conventions:
* paths and flags are `String`s; file bytes are `List Nat`;
* the on-disk filesystem is an association list from absolute path to
  byte content (`Fs`), looked up first-match;
* Python string primitives (`str.strip`, `str.lower`, `str.endswith`,
  `str.startswith`, `os.path.splitext` on a basename) are re-implemented
  character-by-character on `String.data`;
* the external engine is an oracle `List String → EngineOut` mapping a
  realized argument vector to an exit code with captured stdout/stderr;
* user-visible behaviour is a list of events (`Ev`): printed lines,
  directory removal/creation, file writes/copies and engine invocations.
  Banner / console-clearing / window-title presentation is not modelled.
-/

namespace ObfusPS

/-! ## Python string primitives -/

/-- Characters stripped by Python's `str.strip()` (ASCII whitespace). -/
def isPySpace (c : Char) : Bool :=
  c = ' ' || c = '\t' || c = '\n' || c = '\r' || c = '\x0b' || c = '\x0c'

/-- Python `str.strip()`: remove leading and trailing whitespace. -/
def pyStrip (s : String) : String :=
  ⟨((s.data.dropWhile isPySpace).reverse.dropWhile isPySpace).reverse⟩

/-- Python `str.lower()` (ASCII case folding suffices for the menu inputs
and file extensions the tool compares). -/
def pyLower (s : String) : String :=
  ⟨s.data.map Char.toLower⟩

/-- Python `str.endswith(suffix)`. -/
def strEndsWith (s suffix : String) : Bool :=
  suffix.data.isSuffixOf s.data

/-- Python `str.startswith(prefix)`, used for the `abs_folder + os.sep`
containment test on sanitized absolute paths. -/
def strStartsWith (s p : String) : Bool :=
  p.data.isPrefixOf s.data

/-- Number of occurrences of a token in an argument vector. -/
def countTok (t : String) : List String → Nat
  | [] => 0
  | x :: rest => (if x = t then 1 else 0) + countTok t rest

/-- Whether one string occurs as a contiguous substring of another
(used only to inspect printed diagnostic lines). -/
def strContains (s sub : String) : Bool :=
  (List.range (s.data.length + 1)).any fun i => sub.data.isPrefixOf (s.data.drop i)

/-! ## Constants from the source -/

/-- `MAX_INPUT_SIZE = 50 * 1024 * 1024` — maximum input file size. -/
def MAX_INPUT_SIZE : Nat := 50 * 1024 * 1024

/-- `VALID_PROFILES` tuple. -/
def VALID_PROFILES : List String :=
  ["safe", "light", "balanced", "heavy", "stealth", "paranoid", "redteam",
   "blueteam", "size", "dev"]

/-- `folder = 'ObfusPS'` — the working root (modelled with `/` joins). -/
def folderName : String := "ObfusPS"

/-- `output_folder_1 = os.path.join(folder, 'Script-Obfuscate')`. -/
def output_folder_1 : String := "ObfusPS/Script-Obfuscate"

/-- `script_folder = os.path.join(folder, 'Script')`. -/
def script_folder : String := "ObfusPS/Script"

/-! ## File validator (`validate_ps1_file`, lines 136–156)

`os.path.isfile` is a boolean input; `os.path.getsize` is an
`Option Nat` input (`none` models an `OSError` from `getsize`).
The result is `none` when the file is accepted, `some reason` with the
printed error text when it is rejected. -/

def validate_ps1_file (isFile : Bool) (path : String) (sizeRes : Option Nat) :
    Option String :=
  if !isFile then
    some ("File not found: " ++ path)
  else if !(strEndsWith (pyLower path) ".ps1" || strEndsWith (pyLower path) ".psm1") then
    some ("Not a PowerShell file (.ps1/.psm1): " ++ path)
  else
    match sizeRes with
    | none => some ("Cannot read file size: " ++ path)
    | some fileSize =>
      if fileSize = 0 then
        some ("File is empty: " ++ path)
      else if fileSize > MAX_INPUT_SIZE then
        some ("File too large (" ++ toString fileSize ++ " bytes, max " ++
              toString MAX_INPUT_SIZE ++ "): " ++ path)
      else
        none

/-! ## Engine locator (`find_obfusps_runner`, lines 166–187) -/

/-- Execution strategy: `('binary', path)` or `('go_run', project_root)`. -/
inductive Runner where
  | binary (path : String)
  | goRun (projectRoot : String)
  deriving DecidableEq

/-- Environment probed by the locator: platform, files present in the
script's own directory, `shutil.which` results, and the two source
files needed for the `go run` fallback. -/
structure LocEnv where
  isWin : Bool
  scriptDir : String
  scriptDirFiles : List String
  whichObfusps : Option String
  hasGoMod : Bool
  hasCmdMain : Bool
  hasGoToolchain : Bool

/-- Candidate compiled-binary names, per platform (line 174). -/
def binaryNames (isWin : Bool) : List String :=
  if isWin then ["ObfusPS.exe", "obfusps.exe"] else ["obfusps"]

def find_obfusps_runner (e : LocEnv) : Option Runner :=
  match (binaryNames e.isWin).find? (fun n => e.scriptDirFiles.contains n) with
  | some n => some (.binary (e.scriptDir ++ "/" ++ n))
  | none =>
    match e.whichObfusps with
    | some p => some (.binary p)
    | none =>
      if e.hasGoMod && e.hasCmdMain && e.hasGoToolchain then
        some (.goRun e.scriptDir)
      else
        none

/-! ## Mode selection (lines 323–331 and 455–458) -/

inductive UiMode where
  | auto
  | manual
  | command
  | recommend
  deriving DecidableEq

/-- `mode_input.strip().lower()` classified by the three membership tests
`use_auto`, `recommend_only`, `command_mode`; everything else falls into
the `else` branch at line 457 (Manual mode). -/
def selectMode (raw : String) : UiMode :=
  let t := pyLower (pyStrip raw)
  if t = "0" || t = "" || t = "auto" || t = "a" then .auto
  else if t = "r" || t = "recommend" then .recommend
  else if t = "c" || t = "cmd" || t = "command" then .command
  else .manual

/-! ## Command-mode flag filtering (lines 426–438)

The loop walks `custom_flags` with an index; a token equal to `-i` or
`-o` **that has a following token** (`i + 1 < len(custom_flags)`) is
dropped together with that following token and reported; otherwise the
token is kept.  Returns `(filtered, reported)`. -/

def isIOFlag (f : String) : Bool := f = "-i" || f = "-o"

def stripIOFlags : List String → List String × List String
  | [] => ([], [])
  | [f] => ([f], [])
  | f :: g :: rest =>
    if isIOFlag f then
      let (kept, rep) := stripIOFlags rest
      (kept, f :: rep)
    else
      let (kept, rep) := stripIOFlags (g :: rest)
      (f :: kept, rep)

/-! ## Command builders (lines 591–607) -/

/-- COMMAND mode: `['-i', input_path, '-o', output_path] + custom_flags`
(line 593), where `custom_flags` has already been filtered. -/
def buildCommandCmd (inputPath outputPath : String) (filteredFlags : List String) :
    List String :=
  ["-i", inputPath, "-o", outputPath] ++ filteredFlags

/-- AUTO mode argument vector (line 596). -/
def buildAutoCmd (inputPath outputPath : String) : List String :=
  ["-i", inputPath, "-o", outputPath, "-auto", "-auto-retry",
   "-validate-stderr", "ignore", "-validate-timeout", "60"]

/-- MANUAL mode argument vector (lines 599–607). -/
def buildManualCmd (inputPath outputPath : String) (level : Nat) (profile : String)
    (baseName : String) (useAst doValidate : Bool) : List String :=
  ["-i", inputPath, "-o", outputPath, "-level", toString level,
   "-profile", profile, "-context-aware"]
  ++ (if strEndsWith (pyLower baseName) ".psm1" then ["-module-aware"] else [])
  ++ (if useAst then ["-use-ast"] else [])
  ++ (if doValidate then
        ["-validate", "-auto-retry", "-validate-stderr", "ignore",
         "-validate-timeout", "60"]
      else [])
  ++ (if level = 5 then ["-frag", "profile=pro"] else [])

/-! ## Output-name de-duplication (lines 543–558)

`used_names` is a Python dict, modelled as an association list with
first-match lookup and in-place update (dict keys are unique, so the
two agree). -/

/-- `os.path.basename` (POSIX separator). -/
def pyBasename (p : String) : String :=
  ⟨(p.data.reverse.takeWhile (fun c => c ≠ '/')).reverse⟩

/-- Index of the last `'.'` in a character list, if any. -/
def lastDotIdx : List Char → Option Nat
  | [] => none
  | c :: rest =>
    match lastDotIdx rest with
    | some i => some (i + 1)
    | none => if c = '.' then some 0 else none

/-- `os.path.splitext` restricted to a basename (no separators): split at
the last dot unless every character before that dot is itself a dot
(CPython `genericpath._splitext`). -/
def splitextBase (s : String) : String × String :=
  match lastDotIdx s.data with
  | none => (s, "")
  | some i =>
    if (s.data.take i).all (fun c => c = '.') then (s, "")
    else (⟨s.data.take i⟩, ⟨s.data.drop i⟩)

/-- `f'{base}_{n}{ext}'` — the de-duplication rename (line 555). -/
def dedupSuffixName (baseName : String) (n : Nat) : String :=
  let (base, ext) := splitextBase baseName
  base ++ "_" ++ toString n ++ ext

def lookupUsed (used : List (String × Nat)) (b : String) : Option Nat :=
  (used.find? (fun e => e.1 = b)).map (·.2)

/-- Python dict assignment `used_names[b] = n`. -/
def setUsed : List (String × Nat) → String → Nat → List (String × Nat)
  | [], b, n => [(b, n)]
  | (k, v) :: rest, b, n =>
    if k = b then (k, n) :: rest else (k, v) :: setUsed rest b n

/-- The naming fold of the batch loop: a fresh base name enters the dict
at 0 and keeps its name; a repeated one increments its counter and gets
the `_<n>` suffix. -/
def assignNamesGo (used : List (String × Nat)) : List String → List String
  | [] => []
  | b :: rest =>
    match lookupUsed used b with
    | none => b :: assignNamesGo (setUsed used b 0) rest
    | some n => dedupSuffixName b (n + 1) :: assignNamesGo (setUsed used b (n + 1)) rest

/-- Output names assigned to a batch of base names, in encounter order. -/
def assignNames (baseNames : List String) : List String :=
  assignNamesGo [] baseNames

/-- Modelled from the spec's words (§3 invariant / §8), for comparison with
`assignNames`: the `k`-th occurrence of a base name keeps the name when
`k = 0` and otherwise receives the `_<k>` suffix, where `k` counts
earlier occurrences of the same base name. -/
def specDedupNames (prior : List String) : List String → List String
  | [] => []
  | b :: rest =>
    (if countTok b prior = 0 then b else dedupSuffixName b (countTok b prior))
      :: specDedupNames (prior ++ [b]) rest

/-! ## Filesystem and the output-lifecycle manager (lines 516–575) -/

/-- Disk (or cache) contents: absolute path ↦ bytes, first-match lookup. -/
abbrev Fs : Type := List (String × List Nat)

def fsGet (fs : Fs) (p : String) : Option (List Nat) :=
  (fs.find? (fun e => e.1 = p)).map (·.2)

/-- The containment test of line 521:
`os.path.abspath(fp).startswith(abs_folder + os.sep)` on an
already-absolute sanitized path. -/
def underRoot (absFolder sep fp : String) : Bool :=
  strStartsWith fp (absFolder ++ sep)

/-- Lines 519–526: pre-read every valid file lying under the working root
into the in-memory cache (a dict keyed by original path; an unreadable
file is reported and simply not cached).  Runs to completion before any
removal happens. -/
def cacheContents (fs : Fs) (absFolder sep : String) : List String → Fs
  | [] => []
  | fp :: rest =>
    if underRoot absFolder sep fp then
      match fsGet fs fp with
      | some bytes => (fp, bytes) :: cacheContents fs absFolder sep rest
      | none => cacheContents fs absFolder sep rest
    else
      cacheContents fs absFolder sep rest

/-- Effect of `shutil.rmtree(folder)` succeeding: every entry at or under
the root disappears. -/
def removeTree (fs : Fs) (root sep : String) : Fs :=
  fs.filter (fun e => !(e.1 = root || strStartsWith e.1 (root ++ sep)))

/-- Lines 563–568: the backup copy's bytes — from the cache when the
original path was cached, otherwise read from the post-reset disk
(`shutil.copy2` from the original path); `none` models a copy failure,
which skips the file. -/
def backupBytes (cache fsAfter : Fs) (fp : String) : Option (List Nat) :=
  match fsGet cache fp with
  | some bytes => some bytes
  | none => fsGet fsAfter fp

/-! ## Session model (`ObfusPS_Tool`, lines 280–635)

User-visible behaviour as an event trace.  Printed lines are modelled by
their message payload (the timestamp/colour prefixes and pure progress
lines such as the banner, `File i/n:`, `Copied:`, `Removing previous
folders..` are presentation and are omitted); every directory removal or
creation, backup write/copy and engine invocation is an event. -/

/-- Captured result of one engine subprocess. -/
structure EngineOut where
  returncode : Int
  stdout : String
  stderr : String

inductive Ev where
  | print (line : String)
  | rmtree (path : String)
  | mkdir (path : String)
  | writeFile (path : String) (bytes : List Nat)
  | copyFile (src dst : String)
  | invoke (cmd : List String)
  deriving DecidableEq

/-- One interactive batch session's inputs and environment.
`rmtreeRemoves` records whether `shutil.rmtree(folder, ignore_errors=True)`
actually removed the tree: with `ignore_errors=True` the call returns
normally either way (failed removals are suppressed), so this flag
affects only the disk state, never control flow.  `mkdirError` models
`os.makedirs` raising `OSError`. -/
structure Sess where
  loc : LocEnv
  chosenFiles : List String
  fs : Fs
  sizeErrors : List String
  absFolder : String
  modeInput : String
  commandFlags : List String
  manualLevel : Option Nat
  manualProfile : String
  useAst : Bool
  doValidate : Bool
  rmtreeRemoves : Bool
  mkdirError : Option String
  engine : List String → EngineOut

/-- Validation of one chosen path against the session's disk: `isfile`
is presence on disk, `getsize` raises exactly for paths in
`sizeErrors`. -/
def sessValidate (s : Sess) (fp : String) : Option String :=
  validate_ps1_file (fsGet s.fs fp).isSome fp
    (if s.sizeErrors.contains fp then none else (fsGet s.fs fp).map (·.length))

/-- Split a character list at newlines (models `str.splitlines` for the
`\n`-separated engine output). -/
def splitNl : List Char → List (List Char)
  | [] => [[]]
  | c :: rest =>
    if c = '\n' then [] :: splitNl rest
    else
      match splitNl rest with
      | l :: ls => (c :: l) :: ls
      | [] => [[c]]

/-- Lines 617–621: `r.stderr.strip().splitlines()`, each line stripped and
printed when non-empty. -/
def stderrEcho (stderr : String) : List Ev :=
  (((splitNl (pyStrip stderr).data).map (fun l => pyStrip ⟨l⟩)).filter
    (fun l => l ≠ "")).map Ev.print

/-- Wrap a base argument vector in the resolved execution strategy
(lines 609–613): a binary is invoked directly, the source fallback goes
through `go run ./cmd/obfusps` in the project root. -/
def runnerCmd : Runner → List String → List String
  | .binary p, base => p :: base
  | .goRun _, base => ["go", "run", "./cmd/obfusps"] ++ base

/-- The per-file failure line of line 625 (`err_msg` computed at line 624
is never interpolated into it). -/
def failureLine (returncode : Int) : String :=
  "obfusps failed (exit " ++ toString returncode ++ ")"

/-- Line 624: the error-message selection — stderr if non-empty, else
stdout if non-empty, else a generic message.  The assignment is dead
code in the source: this value is never printed. -/
def err_msg (stdout stderr : String) : String :=
  if stderr ≠ "" then pyStrip stderr
  else if stdout ≠ "" then pyStrip stdout
  else "unknown error"

/-- Line 633's batch summary. -/
def summaryLine (attempted : Nat) : String :=
  "Obfuscation complete: " ++ toString attempted ++ " file(s) -> " ++ output_folder_1

/-- The per-file batch loop (lines 545–631): assign the de-duplicated
name, write the backup (cache first, else copy; a copy failure skips the
file), pick the effective input path, build and run the engine command,
echo stderr, and isolate a nonzero exit as a reported skip. -/
def batchLoop (s : Sess) (runner : Runner) (mode : UiMode)
    (filtered : List String) (obfuscationForce : Nat) (cache fsAfter : Fs) :
    List (String × Nat) → List String → List Ev
  | _, [] => []
  | used, fp :: rest =>
    let baseName := pyBasename fp
    let nameAndUsed :=
      match lookupUsed used baseName with
      | none => (baseName, setUsed used baseName 0)
      | some n => (dedupSuffixName baseName (n + 1), setUsed used baseName (n + 1))
    let fileName := nameAndUsed.1
    let used' := nameAndUsed.2
    let scriptPath := script_folder ++ "/" ++ fileName
    let outputPath := output_folder_1 ++ "/" ++ fileName
    let copyEv : Option Ev :=
      match fsGet cache fp with
      | some bytes => some (.writeFile scriptPath bytes)
      | none =>
        match fsGet fsAfter fp with
        | some _ => some (.copyFile fp scriptPath)
        | none => none
    match copyEv with
    | none =>
      .print ("Cannot copy " ++ fileName)
        :: batchLoop s runner mode filtered obfuscationForce cache fsAfter used' rest
    | some backupEv =>
      let inputPath := if (fsGet fsAfter fp).isSome then fp else scriptPath
      let baseCmd :=
        match mode with
        | .command => buildCommandCmd inputPath outputPath filtered
        | .auto => buildAutoCmd inputPath outputPath
        | _ => buildManualCmd inputPath outputPath obfuscationForce s.manualProfile
                 baseName s.useAst s.doValidate
      let cmd := runnerCmd runner baseCmd
      let r := s.engine cmd
      backupEv :: .invoke cmd ::
        (stderrEcho r.stderr ++
          (if r.returncode ≠ 0 then [.print (failureLine r.returncode)]
           else [.print ("Done: " ++ outputPath)])) ++
        batchLoop s runner mode filtered obfuscationForce cache fsAfter used' rest

/-- Lines 516–633: cache at-risk files, reset the working root, recreate
the two subdirectories (an `OSError` there aborts), run the batch loop
and print the summary. -/
def mainBatch (s : Sess) (runner : Runner) (mode : UiMode)
    (filtered : List String) (obfuscationForce : Nat) (valid : List String) :
    List Ev :=
  let cacheEvs := valid.filterMap fun fp =>
    if underRoot s.absFolder "/" fp then
      match fsGet s.fs fp with
      | some _ => some (Ev.print ("Cached: " ++ pyBasename fp ++ " (inside output folder)"))
      | none => some (Ev.print ("Cannot read " ++ fp))
    else none
  let cache := cacheContents s.fs s.absFolder "/" valid
  cacheEvs ++ [Ev.rmtree folderName] ++
    match s.mkdirError with
    | some e => [Ev.print ("Cannot create folders: " ++ e)]
    | none =>
      let fsAfter := if s.rmtreeRemoves then removeTree s.fs s.absFolder "/" else s.fs
      [Ev.mkdir script_folder, Ev.mkdir output_folder_1] ++
        batchLoop s runner mode filtered obfuscationForce cache fsAfter [] valid ++
        [Ev.print (summaryLine valid.length)]

/-- Line 288's diagnostic when the engine cannot be located. -/
def engineNotFoundMsg : String :=
  "obfusps not found. Install Go and run from project root, or run: " ++
  "go install github.com/benzoXdev/obfusps/cmd/obfusps@latest"

/-- The whole session (`ObfusPS_Tool`): locator, picker result, validation
filter, mode dispatch (COMMAND flag filtering at lines 426–439, the
manual menus' abort conditions at lines 486–493), then the batch. -/
def sessionEvents (s : Sess) : List Ev :=
  match find_obfusps_runner s.loc with
  | none => [.print engineNotFoundMsg]
  | some runner =>
    if s.chosenFiles.isEmpty then [.print "No file selected."]
    else
      let valEvs := s.chosenFiles.filterMap fun fp => (sessValidate s fp).map Ev.print
      let valid := s.chosenFiles.filter fun fp => (sessValidate s fp).isNone
      valEvs ++
        if valid.isEmpty then [.print "No valid file."]
        else
          match selectMode s.modeInput with
          | .recommend =>
            valid.flatMap fun fp =>
              let cmd := runnerCmd runner ["-i", fp, "-recommend"]
              .invoke cmd :: stderrEcho (s.engine cmd).stderr
          | .command =>
            let filtered := (stripIOFlags s.commandFlags).1
            let reported := (stripIOFlags s.commandFlags).2
            reported.map (fun f => Ev.print ("Ignoring " ++ f ++ " (auto-filled)")) ++
              mainBatch s runner .command filtered 3 valid
          | .auto => mainBatch s runner .auto [] 3 valid
          | .manual =>
            match s.manualLevel with
            | none => [.print "Invalid number."]
            | some lvl =>
              if lvl < 1 || 5 < lvl then [.print "Choose 1 to 5."]
              else mainBatch s runner .manual [] lvl valid

/-- Engine invocations in a trace. -/
def countInvokes : List Ev → Nat
  | [] => 0
  | .invoke _ :: rest => countInvokes rest + 1
  | _ :: rest => countInvokes rest

/-- Filesystem-mutating events (removal, creation, write, copy). -/
def isFsMutation : Ev → Bool
  | .rmtree _ => true
  | .mkdir _ => true
  | .writeFile _ _ => true
  | .copyFile _ _ => true
  | _ => false

def countFsMutations (evs : List Ev) : Nat :=
  (evs.filter isFsMutation).length

/-! ## Helper lemmas -/

theorem countTok_append (t : String) (l1 l2 : List String) :
    countTok t (l1 ++ l2) = countTok t l1 + countTok t l2 := by
  induction l1 with
  | nil => simp [countTok]
  | cons x rest ih => simp [countTok, ih, Nat.add_assoc]

theorem countTok_eq_zero_of_not_mem (t : String) (l : List String)
    (h : ∀ g ∈ l, g ≠ t) : countTok t l = 0 := by
  induction l with
  | nil => rfl
  | cons x rest ih =>
    have hx : x ≠ t := h x (List.mem_cons_self x rest)
    simp [countTok, hx]
    exact ih fun g hg => h g (List.mem_cons_of_mem x hg)

/-! ## C10 -/

/-- C10: after `strip()` and `lower()`, any mode-selection input that is
not one of the Auto triggers (`0`, empty, `auto`, `a`), the Recommend
triggers (`r`, `recommend`) or the Command triggers (`c`, `cmd`,
`command`) lands in the final `else` branch and selects Manual mode —
arbitrary unrecognized strings included, not only `m`. -/
theorem c10_unrecognized_input_selects_manual (s : String) :
    selectMode s = UiMode.manual ↔
      pyLower (pyStrip s) ∉
        ["0", "", "auto", "a", "r", "recommend", "c", "cmd", "command"] := by
  unfold selectMode
  dsimp only
  split_ifs with h1 h2 h3 <;> simp_all <;> tauto

/-- C10 at concrete inputs: the arbitrary string `xyz` and the
single letter `m` both select Manual; `auto` does not. -/
theorem c10_witness :
    selectMode "xyz" = UiMode.manual ∧ selectMode " M " = UiMode.manual ∧
      ¬ selectMode "auto" = UiMode.manual := by
  refine ⟨(c10_unrecognized_input_selects_manual "xyz").mpr (by decide),
          (c10_unrecognized_input_selects_manual " M ").mpr (by decide), ?_⟩
  intro h
  exact absurd ((c10_unrecognized_input_selects_manual "auto").mp h) (by decide)

/-! ## C6 -/

/-- C6: `validate_ps1_file` accepts exactly the existing regular files
with a case-insensitive `.ps1`/`.psm1` extension and a readable size in
`(0, 50 MiB]`; the checks short-circuit in source order (missing file
dominates extension, extension dominates size, emptiness dominates the
size ceiling), and every rejection message names the offending path. -/
theorem c6_validate_characterization (isFile : Bool) (path : String)
    (sizeRes : Option Nat) :
    (validate_ps1_file isFile path sizeRes = none ↔
       isFile = true ∧
       (strEndsWith (pyLower path) ".ps1" || strEndsWith (pyLower path) ".psm1") = true ∧
       ∃ n, sizeRes = some n ∧ 0 < n ∧ n ≤ MAX_INPUT_SIZE) ∧
    (isFile = false →
       validate_ps1_file isFile path sizeRes = some ("File not found: " ++ path)) ∧
    (isFile = true →
       (strEndsWith (pyLower path) ".ps1" || strEndsWith (pyLower path) ".psm1") = false →
       validate_ps1_file isFile path sizeRes =
         some ("Not a PowerShell file (.ps1/.psm1): " ++ path)) ∧
    (isFile = true →
       (strEndsWith (pyLower path) ".ps1" || strEndsWith (pyLower path) ".psm1") = true →
       sizeRes = some 0 →
       validate_ps1_file isFile path sizeRes = some ("File is empty: " ++ path)) ∧
    (∀ msg, validate_ps1_file isFile path sizeRes = some msg →
       ∃ pre, msg = pre ++ path) := by
  unfold validate_ps1_file
  cases isFile with
  | false =>
    refine ⟨by simp, fun _ => by simp, by simp, by simp, fun msg hmsg => ?_⟩
    simp at hmsg
    exact ⟨"File not found: ", by rw [hmsg]⟩
  | true =>
    cases hext : (strEndsWith (pyLower path) ".ps1" || strEndsWith (pyLower path) ".psm1") with
    | false =>
      refine ⟨by simp, by simp, fun _ _ => by simp, by simp, fun msg hmsg => ?_⟩
      simp at hmsg
      exact ⟨"Not a PowerShell file (.ps1/.psm1): ", by rw [hmsg]⟩
    | true =>
      cases sizeRes with
      | none =>
        refine ⟨by simp, by simp, by simp, by simp, fun msg hmsg => ?_⟩
        simp at hmsg
        exact ⟨"Cannot read file size: ", by rw [hmsg]⟩
      | some n =>
        by_cases h0 : n = 0
        · subst h0
          refine ⟨by simp, by simp, by simp, fun _ _ _ => by simp, fun msg hmsg => ?_⟩
          simp at hmsg
          exact ⟨"File is empty: ", by rw [hmsg]⟩
        · by_cases hbig : n > MAX_INPUT_SIZE
          · refine ⟨?_, by simp, by simp, by simp [h0], fun msg hmsg => ?_⟩
            · simp only [h0, if_false, hbig, if_true]
              constructor
              · intro h
                cases h
              · rintro ⟨-, -, m, hm, -, hle⟩
                injection hm with hm
                omega
            · simp [h0, hbig] at hmsg
              exact ⟨"File too large (" ++ toString n ++ " bytes, max " ++
                       toString MAX_INPUT_SIZE ++ "): ", by rw [hmsg]⟩
          · refine ⟨?_, by simp, by simp, by simp [h0], ?_⟩
            · simp only [h0, if_false, hbig, if_false]
              refine ⟨fun _ => ⟨trivial, trivial, n, rfl, by omega, by omega⟩, fun _ => rfl⟩
            · intro msg hmsg
              simp [h0, hbig] at hmsg

/-- C6 at concrete inputs: an existing 17-byte `.PS1` file passes; a
missing path is rejected with the file-not-found reason. -/
theorem c6_witness :
    validate_ps1_file true "/tmp/ok.PS1" (some 17) = none ∧
    validate_ps1_file false "/tmp/miss.ps1" (some 17) =
      some ("File not found: " ++ "/tmp/miss.ps1") := by
  refine ⟨(c6_validate_characterization true "/tmp/ok.PS1" (some 17)).1.mpr
            ⟨rfl, by decide, 17, rfl, by omega, by decide⟩,
          (c6_validate_characterization false "/tmp/miss.ps1" (some 17)).2.1 rfl⟩

/-! ## C2 -/

/-- C2 counterexample: when the user's raw token list is exactly `["-i"]`
(a trailing `-i` with no following token), the guard `i + 1 <
len(custom_flags)` at line 433 prevents stripping, so the user's `-i`
survives and the built vector contains two `-i` tokens — the claim's
"exactly one `-i`" fails. -/
theorem c2_counterexample :
    buildCommandCmd "/in.ps1" "/out.ps1" (stripIOFlags ["-i"]).1 =
      ["-i", "/in.ps1", "-o", "/out.ps1", "-i"] ∧
    countTok "-i" (buildCommandCmd "/in.ps1" "/out.ps1" (stripIOFlags ["-i"]).1) = 2 ∧
    (stripIOFlags ["-i"]).2 = [] := by
  decide

theorem stripIOFlags_reported : ∀ flags : List String,
    ∀ f ∈ (stripIOFlags flags).2, isIOFlag f = true := by
  intro flags
  induction flags using stripIOFlags.induct with
  | case1 => intro f hf; cases hf
  | case2 g => intro f hf; cases hf
  | case3 f g rest hio kept rep heq ih =>
    intro x hx
    simp only [stripIOFlags, hio, if_true, heq] at hx
    rcases List.mem_cons.mp hx with h | h
    · subst h; exact hio
    · exact ih x (by rw [heq]; exact h)
  | case4 f g rest hio kept rep heq ih =>
    intro x hx
    simp only [stripIOFlags, hio, if_false, heq] at hx
    exact ih x (by rw [heq]; exact hx)

theorem stripIOFlags_kept_clean : ∀ flags : List String,
    (∀ f, flags.getLast? = some f → isIOFlag f = false) →
    ∀ g ∈ (stripIOFlags flags).1, isIOFlag g = false := by
  intro flags
  induction flags using stripIOFlags.induct with
  | case1 => intro _ g hg; cases hg
  | case2 f =>
    intro hlast g hg
    rcases List.mem_singleton.mp hg with rfl
    exact hlast g rfl
  | case3 f g rest hio kept rep heq ih =>
    intro hlast x hx
    simp only [stripIOFlags, hio, if_true, heq] at hx
    refine ih (fun y hy => ?_) x (by rw [heq]; exact hx)
    cases rest with
    | nil => cases hy
    | cons a as =>
      exact hlast y (by rw [List.getLast?_cons_cons, List.getLast?_cons_cons]; exact hy)
  | case4 f g rest hio kept rep heq ih =>
    intro hlast x hx
    simp only [stripIOFlags, hio, if_false, heq] at hx
    rcases List.mem_cons.mp hx with h | h
    · subst h
      cases hb : isIOFlag x
      · rfl
      · exact absurd hb hio
    · exact ih (fun y hy => hlast y (by rw [List.getLast?_cons_cons]; exact hy)) x
        (by rw [heq]; exact h)

/-- C2 amended: the filter strips every user-supplied `-i`/`-o` **that has
a following token**, together with that token, and reports each stripped
flag; provided the user's final token is not a surviving `-i`/`-o` (and
the orchestrator's own paths are not themselves `-i`/`-o`), the built
vector contains exactly one `-i` and one `-o`, both bound at the front
to the orchestrator-chosen paths, and no user `-i`/`-o` remains.  (A
trailing `-i`/`-o` with no following token survives, per the
counterexample.) -/
theorem c2_amended_io_flags_unique (flags : List String) (inPath outPath : String)
    (hlast : ∀ f, flags.getLast? = some f → isIOFlag f = false)
    (hin : isIOFlag inPath = false) (hout : isIOFlag outPath = false) :
    countTok "-i" (buildCommandCmd inPath outPath (stripIOFlags flags).1) = 1 ∧
    countTok "-o" (buildCommandCmd inPath outPath (stripIOFlags flags).1) = 1 ∧
    (buildCommandCmd inPath outPath (stripIOFlags flags).1).take 4 =
      ["-i", inPath, "-o", outPath] ∧
    (∀ g ∈ (stripIOFlags flags).1, isIOFlag g = false) ∧
    (∀ f ∈ (stripIOFlags flags).2, isIOFlag f = true) := by
  have hkept := stripIOFlags_kept_clean flags hlast
  have hne : ∀ g ∈ (stripIOFlags flags).1, g ≠ "-i" ∧ g ≠ "-o" := by
    intro g hg
    have h := hkept g hg
    simp [isIOFlag] at h
    exact h
  have hzi : countTok "-i" (stripIOFlags flags).1 = 0 :=
    countTok_eq_zero_of_not_mem _ _ fun g hg => (hne g hg).1
  have hzo : countTok "-o" (stripIOFlags flags).1 = 0 :=
    countTok_eq_zero_of_not_mem _ _ fun g hg => (hne g hg).2
  have hinne : inPath ≠ "-i" ∧ inPath ≠ "-o" := by
    constructor <;> intro h <;> subst h <;> simp [isIOFlag] at hin
  have houtne : outPath ≠ "-i" ∧ outPath ≠ "-o" := by
    constructor <;> intro h <;> subst h <;> simp [isIOFlag] at hout
  refine ⟨?_, ?_, ?_, hkept, stripIOFlags_reported flags⟩
  · rw [buildCommandCmd, countTok_append, hzi]
    simp [countTok, hinne.1, houtne.1]
  · rw [buildCommandCmd, countTok_append, hzo]
    simp [countTok, hinne.2, houtne.2]
  · rfl

/-- C2 amended, at a concrete input: `-level 5 -i foo -o bar` has both
overrides stripped and reported, and the built vector binds the
orchestrator's paths exactly once each. -/
theorem c2_witness :
    countTok "-i" (buildCommandCmd "/w/in.ps1" "/w/out.ps1"
      (stripIOFlags ["-level", "5", "-i", "foo", "-o", "bar"]).1) = 1 ∧
    countTok "-o" (buildCommandCmd "/w/in.ps1" "/w/out.ps1"
      (stripIOFlags ["-level", "5", "-i", "foo", "-o", "bar"]).1) = 1 ∧
    (buildCommandCmd "/w/in.ps1" "/w/out.ps1"
      (stripIOFlags ["-level", "5", "-i", "foo", "-o", "bar"]).1).take 4 =
      ["-i", "/w/in.ps1", "-o", "/w/out.ps1"] := by
  have h := c2_amended_io_flags_unique ["-level", "5", "-i", "foo", "-o", "bar"]
    "/w/in.ps1" "/w/out.ps1" (by decide) (by decide) (by decide)
  exact ⟨h.1, h.2.1, h.2.2.1⟩

/-! ## C3 -/

theorem lookupUsed_setUsed_self (used : List (String × Nat)) (b : String) (n : Nat) :
    lookupUsed (setUsed used b n) b = some n := by
  induction used with
  | nil => simp [setUsed, lookupUsed]
  | cons e rest ih =>
    by_cases he : e.1 = b
    · simp [setUsed, he, lookupUsed, List.find?]
    · cases e with
      | mk k v =>
        simp only at he
        simp [setUsed, he, lookupUsed, List.find?] at ih ⊢
        exact ih

theorem lookupUsed_setUsed_ne (used : List (String × Nat)) (b b' : String) (n : Nat)
    (h : b' ≠ b) : lookupUsed (setUsed used b n) b' = lookupUsed used b' := by
  induction used with
  | nil => simp [setUsed, lookupUsed, List.find?, Ne.symm h]
  | cons e rest ih =>
    cases e with
    | mk k v =>
      by_cases hk : k = b
      · subst hk
        simp [setUsed, lookupUsed, List.find?, Ne.symm h]
      · by_cases hk' : k = b'
        · subst hk'
          simp [setUsed, h, hk, lookupUsed, List.find?]
        · simp [setUsed, hk, lookupUsed, List.find?, hk'] at ih ⊢
          exact ih

theorem countTok_append_singleton (t b : String) (l : List String) :
    countTok t (l ++ [b]) = countTok t l + (if b = t then 1 else 0) := by
  rw [countTok_append]
  simp [countTok]

/-- The invariant tying the `used_names` dict to the count of earlier
occurrences: a base name seen `c` times so far maps to `c - 1` (and is
absent when `c = 0`). -/
def UsedInv (prior : List String) (used : List (String × Nat)) : Prop :=
  ∀ b, lookupUsed used b =
    match countTok b prior with
    | 0 => none
    | n + 1 => some n

theorem assignNamesGo_eq_spec : ∀ (names prior : List String)
    (used : List (String × Nat)), UsedInv prior used →
    assignNamesGo used names = specDedupNames prior names := by
  intro names
  induction names with
  | nil => intro prior used _; rfl
  | cons b rest ih =>
    intro prior used hinv
    have hb := hinv b
    cases hcnt : countTok b prior with
    | zero =>
      rw [hcnt] at hb
      rw [assignNamesGo, specDedupNames, hb, hcnt]
      simp only [if_pos rfl]
      congr 1
      refine ih (prior ++ [b]) _ fun b' => ?_
      by_cases hbb : b' = b
      · subst hbb
        rw [lookupUsed_setUsed_self, countTok_append_singleton, hcnt]
        simp
      · rw [lookupUsed_setUsed_ne _ _ _ _ hbb, countTok_append_singleton]
        simp [Ne.symm hbb]
        exact hinv b'
    | succ n =>
      rw [hcnt] at hb
      rw [assignNamesGo, specDedupNames, hb, hcnt]
      simp only [Nat.succ_ne_zero, if_neg]
      congr 1
      refine ih (prior ++ [b]) _ fun b' => ?_
      by_cases hbb : b' = b
      · subst hbb
        rw [lookupUsed_setUsed_self, countTok_append_singleton, hcnt]
        simp
      · rw [lookupUsed_setUsed_ne _ _ _ _ hbb, countTok_append_singleton]
        simp [Ne.symm hbb]
        exact hinv b'

/-- C3 amended: the assigned names follow the deterministic
encounter-order rule exactly as claimed — the first occurrence of a base
name keeps it, the `k`-th duplicate gets `_<k>` inserted before the
extension (`assignNames` refines `specDedupNames`, the rule transcribed
from the spec).  The claim's *global uniqueness* clause, however, does
not hold (see the counterexample): a batch may pair a suffixed duplicate
with an input literally bearing that suffixed name. -/
theorem c3_amended_dedup_rule (baseNames : List String) :
    assignNames baseNames = specDedupNames [] baseNames := by
  refine assignNamesGo_eq_spec baseNames [] [] fun b => ?_
  rfl

/-- C3 counterexample: a batch whose base names are
`a.ps1, a.ps1, a_1.ps1` is assigned the names
`a.ps1, a_1.ps1, a_1.ps1` — the second and third collide, so the
assigned output names are not unique within the batch. -/
theorem c3_counterexample :
    assignNames ["a.ps1", "a.ps1", "a_1.ps1"] = ["a.ps1", "a_1.ps1", "a_1.ps1"] ∧
    ¬ (assignNames ["a.ps1", "a.ps1", "a_1.ps1"]).Nodup := by
  decide

/-! ## C8 -/

/-- C8: a manual-mode argument vector carries the fragmentation-profile
flag exactly when the chosen level is 5, in which case it ends with
`-frag profile=pro`; for levels 1–4 no `-frag` token appears.  (The
level is in range 1–5 by the menu guard at line 491; the orchestrator's
paths and a valid profile are never the literal `-frag`.) -/
theorem c8_frag_iff_level5 (inPath outPath profile baseName : String) (level : Nat)
    (useAst doValidate : Bool)
    (hlo : 1 ≤ level) (hhi : level ≤ 5)
    (hp : profile ∈ VALID_PROFILES)
    (hin : inPath ≠ "-frag") (hout : outPath ≠ "-frag") :
    ("-frag" ∈ buildManualCmd inPath outPath level profile baseName useAst doValidate ↔
       level = 5) ∧
    (level = 5 →
       ∃ pre, buildManualCmd inPath outPath level profile baseName useAst doValidate =
         pre ++ ["-frag", "profile=pro"]) := by
  have hpf : ("-frag" : String) ≠ profile := by
    intro h
    rw [← h] at hp
    simp [VALID_PROFILES] at hp
  have hlv : ("-frag" : String) ≠ toString level := by
    interval_cases level <;> decide
  have hin' : ("-frag" : String) ≠ inPath := Ne.symm hin
  have hout' : ("-frag" : String) ≠ outPath := Ne.symm hout
  constructor
  · constructor
    · intro hmem
      by_contra h5
      unfold buildManualCmd at hmem
      rw [if_neg h5] at hmem
      split_ifs at hmem <;>
        simp_all [List.mem_append, List.mem_cons]
    · intro h5
      subst h5
      unfold buildManualCmd
      simp [List.mem_append]
  · intro h5
    subst h5
    refine ⟨["-i", inPath, "-o", outPath, "-level", toString 5,
             "-profile", profile, "-context-aware"]
      ++ (if strEndsWith (pyLower baseName) ".psm1" then ["-module-aware"] else [])
      ++ (if useAst then ["-use-ast"] else [])
      ++ (if doValidate then
            ["-validate", "-auto-retry", "-validate-stderr", "ignore",
             "-validate-timeout", "60"]
          else []), ?_⟩
    simp [buildManualCmd, List.append_assoc]

/-- C8 at concrete inputs: level 5 yields the `-frag` flag, level 3 does
not. -/
theorem c8_witness :
    ("-frag" ∈ buildManualCmd "/w/in.ps1" "/w/out.ps1" 5 "balanced" "a.ps1" true false) ∧
    ¬ ("-frag" ∈ buildManualCmd "/w/in.ps1" "/w/out.ps1" 3 "balanced" "a.ps1" true false) := by
  constructor
  · exact (c8_frag_iff_level5 "/w/in.ps1" "/w/out.ps1" "balanced" "a.ps1" 5 true false
      (by omega) (by omega) (by decide) (by decide) (by decide)).1.mpr rfl
  · intro h
    exact absurd ((c8_frag_iff_level5 "/w/in.ps1" "/w/out.ps1" "balanced" "a.ps1" 3 true false
      (by omega) (by omega) (by decide) (by decide) (by decide)).1.mp h) (by decide)

/-! ## C1 -/

theorem fsGet_cons_self (k : String) (v : List Nat) (fs : Fs) :
    fsGet ((k, v) :: fs) k = some v := by
  simp [fsGet, List.find?]

theorem fsGet_cons_ne (k : String) (v : List Nat) (fs : Fs) (p : String) (h : k ≠ p) :
    fsGet ((k, v) :: fs) p = fsGet fs p := by
  simp [fsGet, List.find?, h]

theorem fsGet_cacheContents (fs : Fs) (absFolder sep fp : String)
    (files : List String) (bytes : List Nat)
    (hmem : fp ∈ files) (hunder : underRoot absFolder sep fp = true)
    (hread : fsGet fs fp = some bytes) :
    fsGet (cacheContents fs absFolder sep files) fp = some bytes := by
  induction files with
  | nil => cases hmem
  | cons g rest ih =>
    by_cases hg : g = fp
    · subst hg
      rw [cacheContents, if_pos hunder, hread]
      exact fsGet_cons_self _ _ _
    · have hmem' : fp ∈ rest := by
        rcases List.mem_cons.mp hmem with h | h
        · exact absurd h.symm hg
        · exact h
      rw [cacheContents]
      split_ifs with hu
      · cases hb : fsGet fs g with
        | none => exact ih hmem'
        | some b =>
          rw [fsGet_cons_ne _ _ _ _ hg]
          exact ih hmem'
      · exact ih hmem'

/-- C1: a valid input whose sanitized absolute path lies underneath the
working root has its full byte content captured in the in-memory cache
(computed from the pre-reset disk, before `shutil.rmtree` runs), and the
backup copy later written for it carries exactly those pre-reset bytes:
the cached bytes are used regardless of what the post-reset disk
contains at the original path (in particular for the actual post-reset
disk `removeTree fs`), so the deleted original is never re-read. -/
theorem c1_cache_roundtrip (fs otherFs : Fs) (absFolder sep fp : String)
    (files : List String) (bytes : List Nat)
    (hmem : fp ∈ files)
    (hunder : underRoot absFolder sep fp = true)
    (hread : fsGet fs fp = some bytes) :
    fsGet (cacheContents fs absFolder sep files) fp = some bytes ∧
    backupBytes (cacheContents fs absFolder sep files) (removeTree fs absFolder sep) fp =
      some bytes ∧
    backupBytes (cacheContents fs absFolder sep files) otherFs fp = some bytes := by
  have hc := fsGet_cacheContents fs absFolder sep fp files bytes hmem hunder hread
  refine ⟨hc, ?_, ?_⟩ <;> rw [backupBytes, hc]

/-- C1 at a concrete input: a file inside `ObfusPS/Script` is cached and
its backup equals its pre-reset bytes even though the reset removed the
original path; the post-reset disk no longer holds it. -/
theorem c1_witness :
    fsGet (cacheContents [("/w/ObfusPS/Script/x.ps1", [9, 8, 7])] "/w/ObfusPS" "/"
        ["/w/ObfusPS/Script/x.ps1"]) "/w/ObfusPS/Script/x.ps1" = some [9, 8, 7] ∧
    backupBytes (cacheContents [("/w/ObfusPS/Script/x.ps1", [9, 8, 7])] "/w/ObfusPS" "/"
        ["/w/ObfusPS/Script/x.ps1"])
      (removeTree [("/w/ObfusPS/Script/x.ps1", [9, 8, 7])] "/w/ObfusPS" "/")
      "/w/ObfusPS/Script/x.ps1" = some [9, 8, 7] ∧
    backupBytes (cacheContents [("/w/ObfusPS/Script/x.ps1", [9, 8, 7])] "/w/ObfusPS" "/"
        ["/w/ObfusPS/Script/x.ps1"]) [] "/w/ObfusPS/Script/x.ps1" = some [9, 8, 7] ∧
    removeTree [("/w/ObfusPS/Script/x.ps1", [9, 8, 7])] "/w/ObfusPS" "/" = [] := by
  have h := c1_cache_roundtrip [("/w/ObfusPS/Script/x.ps1", [9, 8, 7])] []
    "/w/ObfusPS" "/" "/w/ObfusPS/Script/x.ps1" ["/w/ObfusPS/Script/x.ps1"] [9, 8, 7]
    (List.mem_singleton.mpr rfl) (by decide) (by decide)
  exact ⟨h.1, h.2.1, h.2.2, by decide⟩

/-! ## C7 -/

/-- C7: when the locator matches none of its ordered candidates — no
platform-appropriate binary in the script's directory, nothing named
`obfusps` on the search path, and no complete source fallback
(`go.mod` + `cmd/obfusps/main.go` + `go` on the path) — the session's
entire observable behaviour is the single diagnostic line: no file
processing, no engine invocation, and no filesystem mutation of any
kind (working root untouched). -/
theorem c7_locator_not_found_no_processing (s : Sess)
    (hnone : find_obfusps_runner s.loc = none) :
    (∀ n ∈ binaryNames s.loc.isWin, n ∉ s.loc.scriptDirFiles) ∧
    s.loc.whichObfusps = none ∧
    (s.loc.hasGoMod && s.loc.hasCmdMain && s.loc.hasGoToolchain) = false ∧
    sessionEvents s = [Ev.print engineNotFoundMsg] ∧
    countInvokes (sessionEvents s) = 0 ∧
    countFsMutations (sessionEvents s) = 0 := by
  have hnone0 := hnone
  unfold find_obfusps_runner at hnone
  cases hf : (binaryNames s.loc.isWin).find? (fun n => s.loc.scriptDirFiles.contains n) with
  | some n => rw [hf] at hnone; cases hnone
  | none =>
    rw [hf] at hnone
    cases hw : s.loc.whichObfusps with
    | some p => rw [hw] at hnone; cases hnone
    | none =>
      rw [hw] at hnone
      have hcond : (s.loc.hasGoMod && s.loc.hasCmdMain && s.loc.hasGoToolchain) = false := by
        cases hc : (s.loc.hasGoMod && s.loc.hasCmdMain && s.loc.hasGoToolchain) with
        | false => rfl
        | true => rw [hc] at hnone; simp at hnone
      have hsess : sessionEvents s = [Ev.print engineNotFoundMsg] := by
        unfold sessionEvents
        rw [hnone0]
      refine ⟨?_, rfl, hcond, hsess, ?_, ?_⟩
      · intro n hn hmem
        have h := List.find?_eq_none.mp hf n hn
        simp at h
        exact h hmem
      · rw [hsess]; rfl
      · rw [hsess]; rfl

/-- Concrete environment for C7: no bundled binary, nothing on the search
path, no source tree. -/
def sessC7 : Sess where
  loc := { isWin := false, scriptDir := "/app", scriptDirFiles := [],
           whichObfusps := none, hasGoMod := false, hasCmdMain := false,
           hasGoToolchain := false }
  chosenFiles := ["/d/a.ps1"]
  fs := [("/d/a.ps1", [7])]
  sizeErrors := []
  absFolder := "/w/ObfusPS"
  modeInput := "0"
  commandFlags := []
  manualLevel := some 3
  manualProfile := "balanced"
  useAst := true
  doValidate := false
  rmtreeRemoves := true
  mkdirError := none
  engine := fun _ => ⟨0, "", ""⟩

/-- C7 at a concrete environment with no binary, empty `PATH` results and
no source tree: the session is the lone diagnostic. -/
theorem c7_witness :
    sessionEvents sessC7 = [Ev.print engineNotFoundMsg] :=
  (c7_locator_not_found_no_processing sessC7 (by decide)).2.2.2.1

/-! ## C4 -/

theorem countInvokes_append (l1 l2 : List Ev) :
    countInvokes (l1 ++ l2) = countInvokes l1 + countInvokes l2 := by
  induction l1 with
  | nil => simp [countInvokes]
  | cons e rest ih => cases e <;> simp [countInvokes, ih, Nat.add_right_comm]

theorem countInvokes_filterMap_print {α : Type} (l : List α) (f : α → Option Ev)
    (hf : ∀ x ev, f x = some ev → ∃ m, ev = .print m) :
    countInvokes (l.filterMap f) = 0 := by
  induction l with
  | nil => rfl
  | cons x rest ih =>
    rw [List.filterMap_cons]
    cases hx : f x with
    | none => exact ih
    | some ev =>
      obtain ⟨m, rfl⟩ := hf x ev hx
      simp [countInvokes, ih]

/-- C4 amended: during working-tree preparation all **removal** errors
are tolerated — `shutil.rmtree(folder, ignore_errors=True)` suppresses
every failure, including a failure to remove the working root itself, so
the session proceeds either way (second conjunct: with subdirectory
creation succeeding, the batch always runs to its summary, whatever the
removal outcome); what *is* fatal is a failure to recreate the managed
subdirectories, which aborts with the `Cannot create folders`
diagnostic before any engine invocation (first conjunct). -/
theorem c4_amended_mkdir_fatal_rmtree_tolerated :
    (∀ (s : Sess) (runner : Runner) (mode : UiMode) (filtered : List String)
       (force : Nat) (valid : List String) (e : String),
       s.mkdirError = some e →
       countInvokes (mainBatch s runner mode filtered force valid) = 0 ∧
       Ev.print ("Cannot create folders: " ++ e) ∈
         mainBatch s runner mode filtered force valid) ∧
    (∀ (s : Sess) (runner : Runner) (mode : UiMode) (filtered : List String)
       (force : Nat) (valid : List String),
       s.mkdirError = none →
       Ev.print (summaryLine valid.length) ∈
         mainBatch s runner mode filtered force valid) := by
  constructor
  · intro s runner mode filtered force valid e hmk
    unfold mainBatch
    rw [hmk]
    constructor
    · rw [countInvokes_append, countInvokes_append]
      have hz := countInvokes_filterMap_print valid
        (fun fp =>
          if underRoot s.absFolder "/" fp then
            match fsGet s.fs fp with
            | some _ =>
              some (Ev.print ("Cached: " ++ pyBasename fp ++ " (inside output folder)"))
            | none => some (Ev.print ("Cannot read " ++ fp))
          else none)
        (by
          intro x ev h
          dsimp only at h
          split_ifs at h with hu
          · cases hfs : fsGet s.fs x with
            | some b => rw [hfs] at h; exact ⟨_, (Option.some.inj h).symm⟩
            | none => rw [hfs] at h; exact ⟨_, (Option.some.inj h).symm⟩)
      rw [hz]
      rfl
    · simp [List.mem_append]
  · intro s runner mode filtered force valid hmk
    unfold mainBatch
    rw [hmk]
    simp [List.mem_append]

/-- Concrete session in which the removal of the working root fails
(`rmtreeRemoves = false`) while input and engine are healthy. -/
def sessC4 : Sess where
  loc := { isWin := false, scriptDir := "/app", scriptDirFiles := ["obfusps"],
           whichObfusps := none, hasGoMod := false, hasCmdMain := false,
           hasGoToolchain := false }
  chosenFiles := ["/d/a.ps1"]
  fs := [("/d/a.ps1", [7])]
  sizeErrors := []
  absFolder := "/w/ObfusPS"
  modeInput := "0"
  commandFlags := []
  manualLevel := some 3
  manualProfile := "balanced"
  useAst := true
  doValidate := false
  rmtreeRemoves := false
  mkdirError := none
  engine := fun _ => ⟨0, "", ""⟩

/-- C4 counterexample: a failure to remove the working root itself is
**not** fatal — `ignore_errors=True` swallows it (the `except` handler
at lines 531–533 is unreachable), so the session carries on and still
invokes the engine once, instead of aborting as the claim states. -/
theorem c4_counterexample :
    countInvokes (sessionEvents sessC4) = 1 ∧
    sessionEvents sessC4 =
      [Ev.rmtree folderName, Ev.mkdir script_folder, Ev.mkdir output_folder_1,
       Ev.copyFile "/d/a.ps1" (script_folder ++ "/" ++ "a.ps1"),
       Ev.invoke ("/app/obfusps" ::
         buildAutoCmd "/d/a.ps1" (output_folder_1 ++ "/" ++ "a.ps1")),
       Ev.print ("Done: " ++ (output_folder_1 ++ "/" ++ "a.ps1")),
       Ev.print (summaryLine 1)] := by
  decide

/-- C4 amended, at a concrete input: with `os.makedirs` failing, the
batch performs zero engine invocations and surfaces the diagnostic. -/
theorem c4_witness :
    countInvokes (mainBatch sessC4 (.binary "/app/obfusps") .auto [] 3 ["/d/a.ps1"]) = 0 ∨
    (countInvokes (mainBatch { sessC4 with mkdirError := some "Permission denied" }
        (.binary "/app/obfusps") .auto [] 3 ["/d/a.ps1"]) = 0 ∧
     Ev.print ("Cannot create folders: " ++ "Permission denied") ∈
       mainBatch { sessC4 with mkdirError := some "Permission denied" }
         (.binary "/app/obfusps") .auto [] 3 ["/d/a.ps1"]) :=
  Or.inr (c4_amended_mkdir_fatal_rmtree_tolerated.1
    { sessC4 with mkdirError := some "Permission denied" }
    (.binary "/app/obfusps") .auto [] 3 ["/d/a.ps1"] "Permission denied" rfl)

/-! ## C5 -/

/-- Concrete session for exercising the nonzero-exit path: the engine
exits 1 with empty stdout and stderr on the first file and succeeds on
the second. -/
def sessC5 : Sess where
  loc := { isWin := false, scriptDir := "/app", scriptDirFiles := ["obfusps"],
           whichObfusps := none, hasGoMod := false, hasCmdMain := false,
           hasGoToolchain := false }
  chosenFiles := ["/d/a.ps1", "/d/b.ps1"]
  fs := [("/d/a.ps1", [1]), ("/d/b.ps1", [2])]
  sizeErrors := []
  absFolder := "/w/ObfusPS"
  modeInput := "0"
  commandFlags := []
  manualLevel := some 3
  manualProfile := "balanced"
  useAst := true
  doValidate := false
  rmtreeRemoves := true
  mkdirError := none
  engine := fun cmd =>
    if cmd.contains "/d/a.ps1" then ⟨1, "", ""⟩ else ⟨0, "", ""⟩

/-- C5: evaluation at the failing input (engine exit code 1, empty stdout
and stderr).  The skip half of the claim holds — the failing file gets
no `Done` line and the batch proceeds to the next file — but the
reported failure line is the fixed `obfusps failed (exit 1)`: the
stderr/stdout/"unknown error" selection of line 624 is computed into the
dead variable `err_msg` and never printed, so no printed line carries
the claimed "unknown error" text. -/
theorem c5_failure_report_evaluation :
    err_msg "" "" = "unknown error" ∧
    failureLine 1 = "obfusps failed (exit 1)" ∧
    Ev.print (failureLine 1) ∈ sessionEvents sessC5 ∧
    Ev.print ("Done: " ++ (output_folder_1 ++ "/" ++ "a.ps1")) ∉ sessionEvents sessC5 ∧
    Ev.print ("Done: " ++ (output_folder_1 ++ "/" ++ "b.ps1")) ∈ sessionEvents sessC5 ∧
    ((sessionEvents sessC5).all fun ev =>
      match ev with
      | .print l => !strContains l "unknown error"
      | _ => true) = true := by
  decide

/-! ## C9 -/

/-- Two C9 sessions differing only in engine outcomes: with `failA` the
engine fails (exit 1) on the first file, otherwise everything
succeeds. -/
def sessC9 (failA : Bool) : Sess where
  loc := { isWin := false, scriptDir := "/app", scriptDirFiles := ["obfusps"],
           whichObfusps := none, hasGoMod := false, hasCmdMain := false,
           hasGoToolchain := false }
  chosenFiles := ["/d/a.ps1", "/d/b.ps1"]
  fs := [("/d/a.ps1", [1]), ("/d/b.ps1", [2])]
  sizeErrors := []
  absFolder := "/w/ObfusPS"
  modeInput := "0"
  commandFlags := []
  manualLevel := some 3
  manualProfile := "balanced"
  useAst := true
  doValidate := false
  rmtreeRemoves := true
  mkdirError := none
  engine := fun cmd =>
    if failA && cmd.contains "/d/a.ps1" then ⟨1, "", ""⟩ else ⟨0, "", ""⟩

/-- C9 counterexample: in a 2-file batch where one engine run fails
(1 file produced of 2 attempted), the final report is the very same
summary line as in the all-success run (2 of 2) — it shows the attempted
count and output folder only, and contains no `1` anywhere, so the
reporter does not print the count of files successfully produced versus
attempted. -/
theorem c9_counterexample :
    Ev.print (failureLine 1) ∈ sessionEvents (sessC9 true) ∧
    Ev.print (failureLine 1) ∉ sessionEvents (sessC9 false) ∧
    (sessionEvents (sessC9 true)).getLast? = some (Ev.print (summaryLine 2)) ∧
    (sessionEvents (sessC9 false)).getLast? = some (Ev.print (summaryLine 2)) ∧
    summaryLine 2 = "Obfuscation complete: 2 file(s) -> ObfusPS/Script-Obfuscate" ∧
    strContains (summaryLine 2) "1" = false := by
  decide

theorem getLast?_append_right {α : Type} (l1 l2 : List α) (e : α)
    (h : l2.getLast? = some e) : (l1 ++ l2).getLast? = some e := by
  rw [List.getLast?_append_of_ne_nil]
  · exact h
  · intro hnil
    subst hnil
    cases h

/-- C9 amended: at the end of a batch that ran to completion, the result
reporter prints the count of **attempted** (valid) files together with
the final output-folder location; no separate count of successfully
produced files is tracked or printed (the summary is the trace's final
line whatever the engine outcomes were). -/
theorem c9_amended_summary_attempted_count (s : Sess) (runner : Runner)
    (h1 : find_obfusps_runner s.loc = some runner)
    (h2 : s.chosenFiles.isEmpty = false)
    (h3 : (s.chosenFiles.filter fun fp => (sessValidate s fp).isNone).isEmpty = false)
    (h4 : selectMode s.modeInput = UiMode.auto)
    (h5 : s.mkdirError = none) :
    (sessionEvents s).getLast? =
      some (Ev.print (summaryLine
        (s.chosenFiles.filter fun fp => (sessValidate s fp).isNone).length)) := by
  unfold sessionEvents
  rw [h1, h2, h4]
  simp only [Bool.false_eq_true, if_false, h3]
  unfold mainBatch
  rw [h5]
  repeat refine getLast?_append_right _ _ _ ?_
  rfl

/-- C9 amended, at a concrete input: a clean 2-file auto batch ends with
the summary line for 2 attempted files. -/
theorem c9_witness :
    (sessionEvents (sessC9 false)).getLast? =
      some (Ev.print (summaryLine
        ((sessC9 false).chosenFiles.filter fun fp =>
          (sessValidate (sessC9 false) fp).isNone).length)) :=
  c9_amended_summary_attempted_count (sessC9 false) (.binary "/app/obfusps")
    (by decide) (by decide) (by decide) (by decide) rfl

end ObfusPS
